import Mathlib

/-!
Verification of the crew-review script (src/crew-review-system/crew-review.py).

The script's bespoke code is two file-writer tools built on pandas
(MarkdownTableTool._run uses pd.DataFrame(data).to_markdown(index=False),
CSVWriterTool._run uses pd.DataFrame(data).to_csv(file_name, index=False)),
the module-level configuration globals, and the task/crew wiring.  This file
embeds those parts shallowly:

- a Record is a key-to-value association list (a Python dict of strings);
- columnsOf and rowsOf embed the pandas DataFrame construction from a list
  of dicts: the columns are the union of the keys in order of first
  appearance, each dict becomes one row, a key a dict lacks becomes a null
  cell (NaN in pandas);
- markdownRender embeds to_markdown(index=False) for string-valued cells:
  the tabulate pipe format, left-aligned columns, each column padded to
  max(header length + 2, longest cell), NaN printed as nan, and no escaping
  of any cell character;
- the CSV writer is embedded at character level (renderCsvChars) following
  the csv-module QUOTE_MINIMAL rules pandas delegates to: a field containing
  a comma, double quote, newline or carriage return is quoted with inner
  quotes doubled, a lone empty field on a line is quoted, rows end in a
  newline; parseCsvChars is a standard CSV reader used to state the
  round-trip property;
- file writes are modelled as small-step traces of FileOp so that append
  and overwrite semantics (mode a and mode w of open) are observable,
  including the intermediate truncated state of mode w;
- the crew tasks of create_tasks are embedded with their literal
  configuration strings, and the module startup (load_dotenv followed by
  unconditional tool construction) is embedded to settle the credential
  validation claim.
-/

namespace CrewReview

/-- One collected review record: a Python dict from field name to value,
embedded as an association list of strings. -/
abbrev Record : Type := List (String × String)

/-- The keys of a record, in dict order. -/
def recordKeys (r : Record) : List String :=
  r.map Prod.fst

/-- Look a field up in a record (first binding wins, as in a dict). -/
def recordGet (r : Record) (c : String) : Option String :=
  r.lookup c

/-- Fold step of the pandas column collection: a new key is appended at the
end, a key already present is kept at its first position. -/
def addColumn (acc : List String) (k : String) : List String :=
  if k ∈ acc then acc else acc ++ [k]

/-- Columns of pd.DataFrame(data) for a list of dicts: the keys of all
records in order of first appearance. -/
def columnsOf (data : List Record) : List String :=
  data.foldl (fun acc r => (recordKeys r).foldl addColumn acc) []

/-- One DataFrame row: a cell for every column, none standing for NaN where
the record lacks the key. -/
def rowOf (cols : List String) (r : Record) : List (Option String) :=
  cols.map (fun c => recordGet r c)

/-- The DataFrame rows, one per record, in input order. -/
def rowsOf (data : List Record) : List (List (Option String)) :=
  data.map (rowOf (columnsOf data))

/-- Specification-level first-seen deduplication: keep the first occurrence
of every element, in order.  Used to characterise columnsOf independently
of its fold. -/
def firstSeenDedup : List String → List String
  | [] => []
  | k :: ks => k :: firstSeenDedup (ks.filter (fun x => x != k))
termination_by l => l.length
decreasing_by
  simp only [List.length_cons]
  exact Nat.lt_succ_of_le (List.length_filter_le _ _)

/-- Markdown rendering of one cell: tabulate prints a NaN cell as nan. -/
def mdCell : Option String → String
  | some v => v
  | none => "nan"

/-- CSV rendering of one cell: to_csv prints a NaN cell as the empty
field (na_rep defaults to the empty string). -/
def csvCell (c : Option String) : String :=
  c.getD ""

/-- Column width used by tabulate: the longest cell, but at least the
header length plus the two-character minimum padding. -/
def colWidth (header : String) (cells : List String) : Nat :=
  (cells.map String.length).foldl Nat.max (header.length + 2)

/-- Pad a cell on the right with spaces to the column width. -/
def padRight (s : String) (w : Nat) : String :=
  s ++ String.mk (List.replicate (w - s.length) ' ')

/-- One pipe-format table line: padded cells between pipes.  No cell
character is escaped. -/
def mdLine (cells : List String) (widths : List Nat) : String :=
  "| " ++ String.intercalate (" | ") ((cells.zip widths).map (fun p => padRight p.1 p.2)) ++ " |"

/-- The pipe-format separator line, left-alignment colons included. -/
def mdSepLine (widths : List Nat) : String :=
  "|" ++ String.intercalate ("|") (widths.map (fun w => ":" ++ String.mk (List.replicate (w + 1) '-'))) ++ "|"

/-- Embeds pd.DataFrame(data).to_markdown(index=False) for string-valued
records: header line, separator line, one line per record.  A frame with no
columns renders as the empty string. -/
def markdownRender (data : List Record) : String :=
  let cols := columnsOf data
  if cols.isEmpty then "" else
    let rows := (rowsOf data).map (fun r => r.map mdCell)
    let widths := (List.range cols.length).map
      (fun j => colWidth (cols.getD j "") (rows.map (fun r => r.getD j "")))
    String.intercalate ("\n")
      (mdLine cols widths :: mdSepLine widths :: rows.map (fun r => mdLine r widths))

/-- Split a character list at every occurrence of a separator character. -/
def splitOnChar (sep : Char) : List Char → List (List Char)
  | [] => [[]]
  | c :: cs =>
    match splitOnChar sep cs with
    | [] => [[c]]
    | r :: rs => if c = sep then [] :: r :: rs else (c :: r) :: rs

/-- Trim the space padding around a cell. -/
def trimSpacesChars (l : List Char) : List Char :=
  ((l.dropWhile (fun c => c == ' ')).reverse.dropWhile (fun c => c == ' ')).reverse

/-- A standard markdown-table reader for one line: drop the outer pipes,
split the rest at every remaining pipe, trim each cell. -/
def mdParseRow (line : String) : List String :=
  ((((splitOnChar '|' line.data)).drop 1).dropLast).map
    (fun cs => String.mk (trimSpacesChars cs))

/-- Re-parse a whole rendered markdown table, line by line. -/
def mdParseTable (s : String) : List (List String) :=
  (splitOnChar '\n' s.data).map (fun l => mdParseRow (String.mk l))

/-- Module globals holding the output paths (lines 82-83 of the script). -/
structure Globals where
  markdown_output : String
  csv_output : String
deriving DecidableEq

/-- The values assigned to the module globals at lines 82-83. -/
def initGlobals : Globals :=
  { markdown_output := "router_review.md", csv_output := "router_review.csv" }

/-- Python evaluates a default parameter value once, when the def is
executed; the file_name default of MarkdownTableTool._run is therefore the
value markdown_output held when the class body ran. -/
def markdownDefaultFile : String :=
  initGlobals.markdown_output

/-- The file_name default of CSVWriterTool._run, captured from csv_output
when the class body ran. -/
def csvDefaultFile : String :=
  initGlobals.csv_output

/-- The destination MarkdownTableTool._run writes to: the explicit argument
if given, otherwise the default captured at class-definition time. -/
def mdRunDestination (file_name : Option String) : String :=
  file_name.getD markdownDefaultFile

/-- The destination CSVWriterTool._run writes to. -/
def csvRunDestination (file_name : Option String) : String :=
  file_name.getD csvDefaultFile

/-- The observable steps the writer tools perform on the destination file. -/
inductive FileOp where
  /-- open(file, mode w): creates or truncates the destination. -/
  | openWrite : FileOp
  /-- open(file, mode a): creates the destination if absent, keeps its
  content otherwise. -/
  | openAppend : FileOp
  /-- f.write(s): appends s to the current content. -/
  | write : String → FileOp
deriving DecidableEq

/-- Effect of one file operation on the destination state (none means the
file does not exist). -/
def FileOp.apply (st : Option String) : FileOp → Option String
  | .openWrite => some ""
  | .openAppend => some (st.getD "")
  | .write s => some (st.getD "" ++ s)

/-- Final destination state after a sequence of file operations. -/
def runFileOps (st : Option String) (ops : List FileOp) : Option String :=
  ops.foldl FileOp.apply st

/-- Every intermediate destination state along a sequence of file
operations, the initial state included. -/
def traceFileOps (st : Option String) (ops : List FileOp) : List (Option String) :=
  ops.scanl FileOp.apply st

/-- The operations MarkdownTableTool._run performs on the destination:
mode a writes the two-newline separator unconditionally before the table,
mode w truncates and writes the table. -/
def mdWriteOps (table : String) (append : Bool) : List FileOp :=
  if append then [FileOp.openAppend, FileOp.write "\n\n", FileOp.write table]
  else [FileOp.openWrite, FileOp.write table]

/-- Result of one tool call: the destination file state and the returned
message. -/
structure RunResult where
  fileState : Option String
  message : String
deriving DecidableEq

/-- Embeds MarkdownTableTool._run: render the DataFrame to markdown, write
it in mode a or mode w, return the confirmation message. -/
def MarkdownTableTool.run (st : Option String) (data : List Record)
    (file_name : Option String) (append : Bool) : RunResult :=
  { fileState := runFileOps st (mdWriteOps (markdownRender data) append)
    message := ("Markdown table generated and saved as ") ++ mdRunDestination file_name }

/-- Intermediate destination states of one MarkdownTableTool._run call. -/
def mdRunTrace (st : Option String) (data : List Record) (append : Bool) :
    List (Option String) :=
  traceFileOps st (mdWriteOps (markdownRender data) append)

/-- True of a character the csv module's QUOTE_MINIMAL quoting reacts to:
the delimiter, the quote character, or a line-terminator character. -/
def isCsvSpecial (c : Char) : Bool :=
  c == ',' || c == '"' || c == '\n' || c == '\r'

/-- A field must be quoted when it contains a special character. -/
def fieldNeedsQuote (f : List Char) : Bool :=
  f.any isCsvSpecial

/-- Double every quote character inside a quoted field. -/
def escapeQuotes : List Char → List Char
  | [] => []
  | c :: cs => if c = '"' then '"' :: '"' :: escapeQuotes cs else c :: escapeQuotes cs

/-- Serialize one field: quoted with inner quotes doubled when it contains
a special character, or when it is the empty lone field of its row (the
csv writer quotes a row consisting of a single empty field so the line is
not read back as a blank line). -/
def renderFieldChars (lone : Bool) (f : List Char) : List Char :=
  if fieldNeedsQuote f || (lone && f.isEmpty) then '"' :: (escapeQuotes f ++ ['"'])
  else f

/-- Serialize the fields of a row with comma separators (rows of two or
more fields; the lone-field rule does not apply). -/
def renderFieldsChars : List (List Char) → List Char
  | [] => []
  | [f] => renderFieldChars false f
  | f :: g :: fs => renderFieldChars false f ++ ',' :: renderFieldsChars (g :: fs)

/-- Serialize one CSV row without its line terminator. -/
def renderRowChars (fs : List (List Char)) : List Char :=
  match fs with
  | [f] => renderFieldChars true f
  | _ => renderFieldsChars fs

/-- Serialize a whole CSV text: every row followed by a newline, as the
csv writer emits it with lineterminator set to a single newline. -/
def renderCsvChars (rows : List (List (List Char))) : List Char :=
  (rows.map (fun r => renderRowChars r ++ ['\n'])).flatten

/-- A standard CSV reader as a state machine over the remaining input.
The booleans are the in-quotes state and whether the current field was
opened by a quote (so that a lone quoted empty field is kept apart from a
blank line, which reads as a row with no fields). -/
def parseCsvAux : List Char → Bool → Bool → List Char → List (List Char) →
    List (List (List Char)) → List (List (List Char))
  | [], inQ, sq, field, row, acc =>
    if inQ = false ∧ sq = false ∧ field = [] ∧ row = [] then acc
    else acc ++ [row ++ [field]]
  | c :: cs, true, sq, field, row, acc =>
    if c = '"' then
      match cs with
      | [] => acc ++ [row ++ [field]]
      | c2 :: cs2 =>
        if c2 = '"' then parseCsvAux cs2 true sq (field ++ ['"']) row acc
        else parseCsvAux (c2 :: cs2) false sq field row acc
    else parseCsvAux cs true sq (field ++ [c]) row acc
  | c :: cs, false, sq, field, row, acc =>
    if c = '"' ∧ sq = false ∧ field = [] then parseCsvAux cs true true field row acc
    else if c = ',' then parseCsvAux cs false false [] (row ++ [field]) acc
    else if c = '\n' then
      if sq = false ∧ field = [] ∧ row = [] then parseCsvAux cs false false [] [] (acc ++ [[]])
      else parseCsvAux cs false false [] [] (acc ++ [row ++ [field]])
    else parseCsvAux cs false sq (field ++ [c]) row acc

/-- Parse a CSV character stream into rows of fields. -/
def parseCsvChars (s : List Char) : List (List (List Char)) :=
  parseCsvAux s false false [] [] []

/-- The table the CSV writer serializes: the header row of column names
followed by the cell rows, NaN cells as empty fields. -/
def csvTable (data : List Record) : List (List String) :=
  columnsOf data :: (rowsOf data).map (fun row => row.map csvCell)

/-- Embeds pd.DataFrame(data).to_csv(file_name, index=False): the whole
written text. -/
def csvRender (data : List Record) : String :=
  String.mk (renderCsvChars ((csvTable data).map (fun r => r.map String.data)))

/-- Re-parse a written CSV text with the standard reader. -/
def csvParse (s : String) : List (List String) :=
  (parseCsvChars s.data).map (fun r => r.map String.mk)

/-- The operations CSVWriterTool._run performs on the destination: to_csv
always creates or truncates. -/
def csvWriteOps (data : List Record) : List FileOp :=
  [FileOp.openWrite, FileOp.write (csvRender data)]

/-- Embeds CSVWriterTool._run: render the DataFrame to CSV, overwrite the
destination, return the confirmation message. -/
def CSVWriterTool.run (st : Option String) (data : List Record)
    (file_name : Option String) : RunResult :=
  { fileState := runFileOps st (csvWriteOps data)
    message := ("CSV file generated and saved as ") ++ csvRunDestination file_name }

/-- One crewai Task as create_tasks configures it.  The context field holds
the names of the tasks passed as context (the source passes the task
objects themselves; they are identified here by their variable names). -/
structure CrewTask where
  name : String
  description : String
  expected_output : String
  agent : String
  context : List String
  output_file : Option String
deriving DecidableEq

/-- The collection task of create_tasks, its f-strings resolved with the
module globals product_type, review_attributes and source_hints. -/
def collect_reviews_task : CrewTask :=
  { name := "collect_reviews_task"
    description := "Collect product reviews for the top NETGEAR RAXE300 Reviews, including price range, ratings, title, urls, name, ports available, and features description, mobile dropping connection issues. Use these type of like tech review sites, amazon reviews,"
    expected_output := "A JSON object containing the collected reviews."
    agent := "Data Collector"
    context := []
    output_file := none }

/-- The markdown analysis task of create_tasks. -/
def analyze_reviews_markdown_task : CrewTask :=
  { name := "analyze_reviews_markdown_task"
    description := "Analyze collected reviews and generate a markdown table for NETGEAR RAXE300 Reviews, including price range, ratings, title, urls, name, ports available, and features description, mobile dropping connection issues. Be sure to avoide Do Not look at other devices."
    expected_output := "A markdown table saved to reviews.md."
    agent := "Data Analyzer"
    context := ["collect_reviews_task"]
    output_file := some "router_review.md" }

/-- The CSV analysis task of create_tasks. -/
def analyze_reviews_csv_task : CrewTask :=
  { name := "analyze_reviews_csv_task"
    description := "Analyze collected reviews of NETGEAR RAXE300 Reviews, including price range, ratings, title, urls, name, ports available, and features description, mobile dropping connection issues. Be sure to avoide Do Not look at other devices. and generate a CSV file."
    expected_output := "A CSV file saved to reviews.csv."
    agent := "Data Analyzer"
    context := ["collect_reviews_task"]
    output_file := some "router_review.csv" }

/-- The ordered task list handed to Crew in create_and_kickoff_crew. -/
def crewTasks : List CrewTask :=
  [collect_reviews_task, analyze_reviews_markdown_task, analyze_reviews_csv_task]

/-- Position of a task name in the crew's task order. -/
def taskPosition (n : String) : Nat :=
  (crewTasks.map CrewTask.name).indexOf n

/-- Embeds load_dotenv(): variables from the .env file are added to the
process environment without overriding variables already present. -/
def load_dotenv (env fileVars : List (String × String)) : List (String × String) :=
  env ++ fileVars.filter (fun p => (env.lookup p.1).isNone)

/-- The environment-provided credentials the collaborator services need,
as the module docstring lists them: a model key, the exa.ai key and the
serper.dev key. -/
def requiredCredentials : List String :=
  ["OPENAI_API_KEY", "EXA_API_KEY", "SERPER_API_KEY"]

/-- Outcome of the module's startup path. -/
inductive StartupOutcome where
  /-- Startup reached the crew kickoff: the effective environment and the
  collaborator tools constructed on the way. -/
  | ok : List (String × String) → List String → StartupOutcome
  /-- A fail-fast missing-credential error naming the absent key.  The
  source has no code path producing this outcome. -/
  | missingCredential : String → StartupOutcome
deriving DecidableEq

/-- The tools create_and_kickoff_crew constructs before kickoff. -/
def startupTools : List String :=
  ["SerperDevTool", "EXASearchTool", "ScrapeWebsiteTool", "MarkdownTableTool", "CSVWriterTool"]

/-- Embeds the module's startup path: load_dotenv() at line 69, then
create_and_kickoff_crew constructs the collaborator tools and kicks off
the crew.  No statement between them inspects any required credential, so
the path is a straight line to the ok outcome whatever the environment
holds. -/
def programStartup (env fileVars : List (String × String)) : StartupOutcome :=
  StartupOutcome.ok (load_dotenv env fileVars) startupTools

/-- Result of running one pipeline stage. -/
inductive StageResult where
  | ok : String → StageResult
  | err : String → StageResult

/-- Modelled from the spec: a Stage of the Pipeline Coordinator (spec 4.1).
The coordinator that runs the three crewai tasks is Crew.kickoff with
Process.sequential, which is code of the external crewai framework, not of
this repository; the stage abstraction follows the spec's words: a named
unit of work with declared context stages whose outputs it reads. -/
structure Stage where
  name : String
  contextNames : List String
  run : List (String × String) → StageResult

/-- The read-only context handed to a stage: the outputs of the completed
stages it declared as context. -/
def contextFor (acc : List (String × String)) (s : Stage) : List (String × String) :=
  acc.filter (fun p => p.1 ∈ s.contextNames)

/-- Modelled from the spec: the Coordinator's run loop (spec 4.1).  Stages
execute strictly in order; a failing stage aborts the remaining stages and
the accumulated outputs are kept. -/
def execStages : List Stage → List (String × String) →
    List (String × String) × Option (String × String)
  | [], acc => (acc, none)
  | s :: rest, acc =>
    match s.run (contextFor acc s) with
    | StageResult.ok o => execStages rest (acc ++ [(s.name, o)])
    | StageResult.err m => (acc, some (s.name, m))

/-- The final report of a pipeline run: the outputs of the completed
stages keyed by stage name, and the identity and message of the failing
stage when one failed. -/
structure Report where
  completed : List (String × String)
  failure : Option (String × String)
deriving DecidableEq

/-- Modelled from the spec: run a whole pipeline and collect the final
report (spec 4.1 and 7). -/
def finalReport (stages : List Stage) : Report :=
  { completed := (execStages stages []).1, failure := (execStages stages []).2 }

/-- A stage that succeeds with a fixed record set, for the concrete
three-stage run. -/
def collectStage : Stage :=
  { name := "collect", contextNames := [], run := fun _ => StageResult.ok "records" }

/-- A stage that fails, for the concrete three-stage run. -/
def failingStage : Stage :=
  { name := "analyze_markdown", contextNames := ["collect"],
    run := fun _ => StageResult.err "collaborator error" }

/-- A stage after the failure, never reached in the concrete run. -/
def neverRunStage : Stage :=
  { name := "analyze_csv", contextNames := ["collect"],
    run := fun _ => StageResult.ok "csv" }

/-- Step: a non-quote character inside quotes is taken literally. -/
theorem parse_step_quoted_char (c : Char) (cs : List Char) (sq : Bool)
    (field : List Char) (row : List (List Char)) (acc : List (List (List Char)))
    (hc : c ≠ '"') :
    parseCsvAux (c :: cs) true sq field row acc
      = parseCsvAux cs true sq (field ++ [c]) row acc := by
  rw [parseCsvAux.eq_def]
  simp [hc]

/-- Step: a doubled quote inside quotes contributes one quote character. -/
theorem parse_step_quoted_double (cs : List Char) (sq : Bool) (field : List Char)
    (row : List (List Char)) (acc : List (List (List Char))) :
    parseCsvAux ('"' :: '"' :: cs) true sq field row acc
      = parseCsvAux cs true sq (field ++ ['"']) row acc := by
  simp [parseCsvAux]

/-- Step: a quote followed by a non-quote closes the quoted section. -/
theorem parse_step_quoted_close (c2 : Char) (cs2 : List Char) (sq : Bool)
    (field : List Char) (row : List (List Char)) (acc : List (List (List Char)))
    (hc2 : c2 ≠ '"') :
    parseCsvAux ('"' :: c2 :: cs2) true sq field row acc
      = parseCsvAux (c2 :: cs2) false sq field row acc := by
  simp [parseCsvAux, hc2]

/-- Step: a quote at the very end closes the quoted section and the input,
flushing the pending field and row. -/
theorem parse_step_quoted_close_end (sq : Bool) (field : List Char)
    (row : List (List Char)) (acc : List (List (List Char))) :
    parseCsvAux ['"'] true sq field row acc = acc ++ [row ++ [field]] := by
  simp [parseCsvAux]

/-- Step: a quote at the start of a field opens a quoted section. -/
theorem parse_step_open_quote (cs : List Char) (row : List (List Char))
    (acc : List (List (List Char))) :
    parseCsvAux ('"' :: cs) false false [] row acc
      = parseCsvAux cs true true [] row acc := by
  simp [parseCsvAux]

/-- Step: an unquoted comma ends the current field. -/
theorem parse_step_comma (cs : List Char) (sq : Bool) (field : List Char)
    (row : List (List Char)) (acc : List (List (List Char))) :
    parseCsvAux (',' :: cs) false sq field row acc
      = parseCsvAux cs false false [] (row ++ [field]) acc := by
  simp [parseCsvAux]

/-- Step: an unquoted newline on a line with visible content ends the
current row. -/
theorem parse_step_newline (cs : List Char) (sq : Bool) (field : List Char)
    (row : List (List Char)) (acc : List (List (List Char)))
    (h : ¬(sq = false ∧ field = [] ∧ row = [])) :
    parseCsvAux ('\n' :: cs) false sq field row acc
      = parseCsvAux cs false false [] [] (acc ++ [row ++ [field]]) := by
  simp only [parseCsvAux]
  rw [if_pos trivial, if_neg h]
  simp

/-- Step: an unquoted ordinary character is taken literally. -/
theorem parse_step_unquoted_char (c : Char) (cs : List Char) (sq : Bool)
    (field : List Char) (row : List (List Char)) (acc : List (List (List Char)))
    (hc : c ≠ '"') (hcm : c ≠ ',') (hnl : c ≠ '\n') :
    parseCsvAux (c :: cs) false sq field row acc
      = parseCsvAux cs false sq (field ++ [c]) row acc := by
  simp only [parseCsvAux]
  rw [if_neg (fun hh => hc hh.1), if_neg hcm, if_neg hnl]

/-- Step: the end of the input flushes a pending non-blank last line. -/
theorem parse_step_end_flush (sq : Bool) (field : List Char)
    (row : List (List Char)) (acc : List (List (List Char)))
    (h : ¬(sq = false ∧ field = [] ∧ row = [])) :
    parseCsvAux [] false sq field row acc = acc ++ [row ++ [field]] := by
  simp only [parseCsvAux]
  rw [if_neg (by simpa using h)]

/-- Step: the end of the input right after a row terminator adds nothing. -/
theorem parse_step_end (acc : List (List (List Char))) :
    parseCsvAux [] false false [] [] acc = acc := by
  simp [parseCsvAux]

/-- Parsing the escaped body of a quoted field accumulates exactly the
original field characters and stops at the closing quote. -/
theorem parse_quoted_body (f : List Char) (rest : List Char) (field : List Char)
    (row : List (List Char)) (acc : List (List (List Char)))
    (hrest : rest.head? ≠ some '"') :
    parseCsvAux (escapeQuotes f ++ '"' :: rest) true true field row acc
      = parseCsvAux rest false true (field ++ f) row acc := by
  induction f generalizing field with
  | nil =>
    cases rest with
    | nil =>
      rw [show escapeQuotes [] ++ '"' :: ([] : List Char) = ['"'] from rfl]
      rw [parse_step_quoted_close_end, parse_step_end_flush]
      · rw [List.append_nil]
      · simp
    | cons r rs =>
      have hr : r ≠ '"' := by simpa using hrest
      rw [show escapeQuotes [] ++ '"' :: r :: rs = '"' :: r :: rs from rfl]
      rw [parse_step_quoted_close r rs true field row acc hr, List.append_nil]
  | cons c f' ih =>
    by_cases hc : c = '"'
    · subst hc
      rw [show escapeQuotes ('"' :: f') ++ '"' :: rest
            = '"' :: '"' :: (escapeQuotes f' ++ '"' :: rest) from by
          simp [escapeQuotes]]
      rw [parse_step_quoted_double, ih (field ++ ['"']), List.append_assoc]
      rfl
    · rw [show escapeQuotes (c :: f') ++ '"' :: rest
            = c :: (escapeQuotes f' ++ '"' :: rest) from by
          simp [escapeQuotes, hc]]
      rw [parse_step_quoted_char c _ true field row acc hc, ih (field ++ [c]),
        List.append_assoc]
      rfl

/-- A character the quoting rules ignore is none of the delimiter, quote,
newline and carriage return. -/
theorem not_special_facts (c : Char) (h : isCsvSpecial c = false) :
    c ≠ ',' ∧ c ≠ '"' ∧ c ≠ '\n' := by
  simp only [isCsvSpecial, Bool.or_eq_false_iff, beq_eq_false_iff_ne, ne_eq] at h
  exact ⟨h.1.1.1, h.1.1.2, h.1.2⟩

/-- Parsing a run of quoting-free characters in unquoted mode accumulates
them into the current field. -/
theorem parse_safe_chars (f : List Char) (rest : List Char) (sq : Bool)
    (field : List Char) (row : List (List Char)) (acc : List (List (List Char)))
    (hf : ∀ c ∈ f, isCsvSpecial c = false) :
    parseCsvAux (f ++ rest) false sq field row acc
      = parseCsvAux rest false sq (field ++ f) row acc := by
  induction f generalizing field with
  | nil => rw [List.nil_append, List.append_nil]
  | cons c f' ih =>
    obtain ⟨hcm, hc, hnl⟩ := not_special_facts c (hf c (List.mem_cons_self c f'))
    rw [List.cons_append, parse_step_unquoted_char c _ sq field row acc hc hcm hnl]
    rw [ih (field ++ [c]) (fun x hx => hf x (List.mem_cons_of_mem c hx)),
      List.append_assoc]
    rfl

/-- A field that needs no quoting consists of quoting-free characters. -/
theorem no_special_of_not_needsQuote (f : List Char) (h : fieldNeedsQuote f = false) :
    ∀ c ∈ f, isCsvSpecial c = false := by
  intro c hc
  have := List.any_eq_false.mp h
  simpa using this c hc

/-- Parsing one serialized field followed by a comma appends the original
field to the current row. -/
theorem parse_rendered_field_comma (lone : Bool) (f : List Char) (rest : List Char)
    (row : List (List Char)) (acc : List (List (List Char))) :
    parseCsvAux (renderFieldChars lone f ++ ',' :: rest) false false [] row acc
      = parseCsvAux rest false false [] (row ++ [f]) acc := by
  by_cases hq : (fieldNeedsQuote f || (lone && f.isEmpty)) = true
  · rw [renderFieldChars, if_pos hq]
    rw [show ('"' :: (escapeQuotes f ++ ['"'])) ++ ',' :: rest
          = '"' :: (escapeQuotes f ++ '"' :: (',' :: rest)) from by simp]
    rw [parse_step_open_quote, parse_quoted_body f (',' :: rest) [] row acc (by simp),
      List.nil_append, parse_step_comma]
  · rw [renderFieldChars, if_neg hq]
    have hf : fieldNeedsQuote f = false := by
      rcases Bool.or_eq_false_iff.mp (Bool.eq_false_iff.mpr hq) with ⟨h1, _⟩
      exact h1
    rw [parse_safe_chars f (',' :: rest) false [] row acc
      (no_special_of_not_needsQuote f hf), List.nil_append, parse_step_comma]

/-- Parsing one serialized field followed by a newline flushes the row,
the original field included.  The side condition rules out the one shape
the serializer never emits in that position: an unquoted empty lone field
ending a line that held nothing else. -/
theorem parse_rendered_field_newline (lone : Bool) (f : List Char) (rest : List Char)
    (row : List (List Char)) (acc : List (List (List Char)))
    (hcase : lone = true ∨ f ≠ [] ∨ row ≠ []) :
    parseCsvAux (renderFieldChars lone f ++ '\n' :: rest) false false [] row acc
      = parseCsvAux rest false false [] [] (acc ++ [row ++ [f]]) := by
  by_cases hq : (fieldNeedsQuote f || (lone && f.isEmpty)) = true
  · rw [renderFieldChars, if_pos hq]
    rw [show ('"' :: (escapeQuotes f ++ ['"'])) ++ '\n' :: rest
          = '"' :: (escapeQuotes f ++ '"' :: ('\n' :: rest)) from by simp]
    rw [parse_step_open_quote, parse_quoted_body f ('\n' :: rest) [] row acc (by simp),
      List.nil_append, parse_step_newline _ _ _ _ _ (by simp)]
  · rw [renderFieldChars, if_neg hq]
    obtain ⟨hf, hlone⟩ := Bool.or_eq_false_iff.mp (Bool.eq_false_iff.mpr hq)
    have hflush : ¬(false = false ∧ f = [] ∧ row = []) := by
      rintro ⟨-, hf0, hrow0⟩
      subst hf0
      have hl : lone = false := by
        simpa [List.isEmpty] using hlone
      rcases hcase with h1 | h2 | h3
      · rw [hl] at h1
        exact Bool.false_ne_true h1
      · exact h2 rfl
      · exact h3 hrow0
    rw [parse_safe_chars f ('\n' :: rest) false [] row acc
      (no_special_of_not_needsQuote f hf), List.nil_append,
      parse_step_newline _ _ _ _ _ hflush]

/-- Parsing the serialized tail fields of a row with a non-empty partial
row flushes the partial row extended by those fields. -/
theorem parse_rendered_fields (fs : List (List Char)) (rest : List Char)
    (row : List (List Char)) (acc : List (List (List Char)))
    (hfs : fs ≠ []) (hrow : row ≠ []) :
    parseCsvAux (renderFieldsChars fs ++ '\n' :: rest) false false [] row acc
      = parseCsvAux rest false false [] [] (acc ++ [row ++ fs]) := by
  revert hfs hrow
  induction fs generalizing row with
  | nil =>
    intro hfs _
    exact absurd rfl hfs
  | cons f fs' ih =>
    intro _ hrow
    cases fs' with
    | nil =>
      rw [show renderFieldsChars [f] = renderFieldChars false f from rfl]
      rw [parse_rendered_field_newline false f rest row acc (Or.inr (Or.inr hrow))]
    | cons g gs =>
      rw [show renderFieldsChars (f :: g :: gs)
            = renderFieldChars false f ++ ',' :: renderFieldsChars (g :: gs) from rfl]
      rw [show (renderFieldChars false f ++ ',' :: renderFieldsChars (g :: gs)) ++ '\n' :: rest
            = renderFieldChars false f ++ ',' :: (renderFieldsChars (g :: gs) ++ '\n' :: rest)
          from by simp]
      rw [parse_rendered_field_comma false f _ row acc]
      rw [ih (row ++ [f]) (by simp) (by simp)]
      simp

/-- Parsing one serialized row followed by a newline appends exactly that
row to the accumulator. -/
theorem parse_rendered_row (fs : List (List Char)) (rest : List Char)
    (acc : List (List (List Char))) (hfs : fs ≠ []) :
    parseCsvAux (renderRowChars fs ++ '\n' :: rest) false false [] [] acc
      = parseCsvAux rest false false [] [] (acc ++ [fs]) := by
  cases fs with
  | nil => exact absurd rfl hfs
  | cons f fs' =>
    cases fs' with
    | nil =>
      rw [show renderRowChars [f] = renderFieldChars true f from rfl]
      rw [parse_rendered_field_newline true f rest [] acc (Or.inl rfl)]
      simp
    | cons g gs =>
      rw [show renderRowChars (f :: g :: gs)
            = renderFieldChars false f ++ ',' :: renderFieldsChars (g :: gs) from rfl]
      rw [show (renderFieldChars false f ++ ',' :: renderFieldsChars (g :: gs)) ++ '\n' :: rest
            = renderFieldChars false f ++ ',' :: (renderFieldsChars (g :: gs) ++ '\n' :: rest)
          from by simp]
      rw [parse_rendered_field_comma false f _ [] acc, List.nil_append]
      rw [parse_rendered_fields (g :: gs) rest [f] acc (by simp) (by simp)]
      rfl

/-- Parsing a whole serialized table appends exactly its rows, provided no
row is empty (the serializer writes every row, the header included, with at
least one field). -/
theorem parse_rendered_csv (rows : List (List (List Char)))
    (acc : List (List (List Char))) (hrows : ∀ r ∈ rows, r ≠ []) :
    parseCsvAux (renderCsvChars rows) false false [] [] acc = acc ++ rows := by
  induction rows generalizing acc with
  | nil =>
    rw [show renderCsvChars [] = [] from rfl, parse_step_end, List.append_nil]
  | cons r rows' ih =>
    rw [show renderCsvChars (r :: rows')
          = renderRowChars r ++ '\n' :: renderCsvChars rows' from by
        simp [renderCsvChars]]
    rw [parse_rendered_row r _ acc (hrows r (List.mem_cons_self r rows'))]
    rw [ih (acc ++ [r]) (fun x hx => hrows x (List.mem_cons_of_mem r hx))]
    simp

/-- Rebuilding a string from its characters gives the string back. -/
theorem stringMk_data (s : String) : String.mk s.data = s := rfl

/-- Converting rows of strings to characters and back is the identity. -/
theorem map_mk_map_data (rs : List (List String)) :
    ((rs.map (fun r => r.map String.data)).map (fun r => r.map String.mk)) = rs := by
  simp [List.map_map, Function.comp_def, stringMk_data]

/-- Collecting columns record by record is the same as collecting them over
the concatenated key stream. -/
theorem foldl_addColumn_flatMap (data : List Record) (acc : List String) :
    data.foldl (fun a r => (recordKeys r).foldl addColumn a) acc
      = (data.flatMap recordKeys).foldl addColumn acc := by
  induction data generalizing acc with
  | nil => rfl
  | cons r rest ih =>
    simp only [List.foldl_cons]
    rw [ih]
    have : (r :: rest).flatMap recordKeys = recordKeys r ++ rest.flatMap recordKeys := rfl
    rw [this, List.foldl_append]

/-- The addColumn fold keeps the accumulator and appends the first-seen
deduplication of the keys not already present. -/
theorem foldl_addColumn_eq_dedup (l : List String) (acc : List String) :
    l.foldl addColumn acc
      = acc ++ firstSeenDedup (l.filter (fun x => decide (¬ x ∈ acc))) := by
  induction l generalizing acc with
  | nil => simp [firstSeenDedup]
  | cons k ks ih =>
    by_cases hk : k ∈ acc
    · have h1 : addColumn acc k = acc := by simp [addColumn, hk]
      have h2 : List.filter (fun x => decide (¬ x ∈ acc)) (k :: ks)
          = List.filter (fun x => decide (¬ x ∈ acc)) ks := by
        simp [List.filter_cons, hk]
      rw [List.foldl_cons, h1, h2, ih acc]
    · have h1 : addColumn acc k = acc ++ [k] := by simp [addColumn, hk]
      have h2 : List.filter (fun x => decide (¬ x ∈ acc)) (k :: ks)
          = k :: List.filter (fun x => decide (¬ x ∈ acc)) ks := by
        simp [List.filter_cons, hk]
      rw [List.foldl_cons, h1, h2, ih (acc ++ [k])]
      have hfsd : firstSeenDedup (k :: ks.filter (fun x => decide (¬ x ∈ acc)))
          = k :: firstSeenDedup ((ks.filter (fun x => decide (¬ x ∈ acc))).filter
              (fun x => x != k)) := by
        simp [firstSeenDedup]
      rw [hfsd]
      have hff : (ks.filter (fun x => decide (¬ x ∈ acc))).filter (fun x => x != k)
          = ks.filter (fun x => decide (¬ x ∈ acc ++ [k])) := by
        rw [List.filter_filter]
        refine List.filter_congr ?_
        intro a _
        by_cases hak : a = k <;> by_cases haa : a ∈ acc <;>
          simp [hak, haa, List.mem_append]
      rw [hff, List.append_assoc]
      rfl

/-- The columns of the DataFrame are exactly the first-seen deduplication
of the key stream of the records, in order. -/
theorem columnsOf_eq_firstSeenDedup (data : List Record) :
    columnsOf data = firstSeenDedup (data.flatMap recordKeys) := by
  rw [columnsOf, foldl_addColumn_flatMap, foldl_addColumn_eq_dedup]
  simp

/-- Looking up a key the record lacks yields the null cell. -/
theorem recordGet_eq_none (r : Record) (c : String) (h : c ∉ recordKeys r) :
    recordGet r c = none := by
  induction r with
  | nil => rfl
  | cons p r' ih =>
    have hsplit : c ≠ p.1 ∧ c ∉ recordKeys r' := by
      simpa [recordKeys] using h
    have hb : (c == p.1) = false := beq_false_of_ne hsplit.1
    have := ih hsplit.2
    simp only [recordGet, List.lookup] at this ⊢
    rw [hb]
    exact this

/-- Looking up a key the record has yields one of the record's values. -/
theorem recordGet_of_mem (r : Record) (c : String) (h : c ∈ recordKeys r) :
    ∃ v, recordGet r c = some v ∧ (c, v) ∈ r := by
  induction r with
  | nil => simp [recordKeys] at h
  | cons p r' ih =>
    by_cases hc : c = p.1
    · refine ⟨p.2, ?_, ?_⟩
      · have hb : (c == p.1) = true := beq_iff_eq.mpr hc
        simp only [recordGet, List.lookup]
        rw [hb]
      · subst hc
        exact List.mem_cons_self _ _
    · have hmem : c ∈ recordKeys r' := by
        rcases (by simpa [recordKeys] using h : c = p.1 ∨ c ∈ recordKeys r') with h1 | h2
        · exact absurd h1 hc
        · exact h2
      obtain ⟨v, hv, hvm⟩ := ih hmem
      refine ⟨v, ?_, List.mem_cons_of_mem _ hvm⟩
      have hb : (c == p.1) = false := beq_false_of_ne hc
      simp only [recordGet, List.lookup] at hv ⊢
      rw [hb]
      exact hv

/-- C1: rendering a record list to a table gives columns equal to the
first-seen ordered union of the record keys, one row per record with
exactly one cell per column, the cell of a key a record lacks being the
null marker on both rendering paths (nan in markdown, the empty field in
CSV) rather than omitted, while present keys keep their recorded value. -/
theorem render_table_shape (data : List Record) (r : Record) (c cp : String)
    (hr : r ∈ data) (hc : c ∉ recordKeys r) (hcp : cp ∈ recordKeys r) :
    columnsOf data = firstSeenDedup (data.flatMap recordKeys)
    ∧ (rowsOf data).length = data.length
    ∧ rowOf (columnsOf data) r ∈ rowsOf data
    ∧ (rowOf (columnsOf data) r).length = (columnsOf data).length
    ∧ recordGet r c = none
    ∧ mdCell (recordGet r c) = "nan"
    ∧ csvCell (recordGet r c) = ""
    ∧ ∃ v, recordGet r cp = some v ∧ (cp, v) ∈ r
        ∧ mdCell (recordGet r cp) = v ∧ csvCell (recordGet r cp) = v := by
  have hnone := recordGet_eq_none r c hc
  obtain ⟨v, hv, hvm⟩ := recordGet_of_mem r cp hcp
  refine ⟨columnsOf_eq_firstSeenDedup data, by simp [rowsOf], ?_, by simp [rowOf],
    hnone, by simp [hnone, mdCell], by simp [hnone, csvCell], v, hv, hvm,
    by simp [hv, mdCell], by simp [hv, csvCell]⟩
  exact List.mem_map_of_mem (rowOf (columnsOf data)) hr

/-- C1 witness: the spec's concrete scenario, two records with keys name,
price and ports; the second record lacks price and has name. -/
theorem render_table_shape_witness :
    columnsOf [[("name", "A"), ("price", "$10")], [("name", "B"), ("ports", "4")]]
      = firstSeenDedup
          (([[("name", "A"), ("price", "$10")], [("name", "B"), ("ports", "4")]] :
            List Record).flatMap recordKeys)
    ∧ (rowsOf [[("name", "A"), ("price", "$10")], [("name", "B"), ("ports", "4")]]).length
      = ([[("name", "A"), ("price", "$10")], [("name", "B"), ("ports", "4")]] :
          List Record).length
    ∧ rowOf (columnsOf [[("name", "A"), ("price", "$10")], [("name", "B"), ("ports", "4")]])
        [("name", "B"), ("ports", "4")]
      ∈ rowsOf [[("name", "A"), ("price", "$10")], [("name", "B"), ("ports", "4")]]
    ∧ (rowOf (columnsOf [[("name", "A"), ("price", "$10")], [("name", "B"), ("ports", "4")]])
        [("name", "B"), ("ports", "4")]).length
      = (columnsOf [[("name", "A"), ("price", "$10")], [("name", "B"), ("ports", "4")]]).length
    ∧ recordGet [("name", "B"), ("ports", "4")] "price" = none
    ∧ mdCell (recordGet [("name", "B"), ("ports", "4")] "price") = "nan"
    ∧ csvCell (recordGet [("name", "B"), ("ports", "4")] "price") = ""
    ∧ ∃ v, recordGet [("name", "B"), ("ports", "4")] "name" = some v
        ∧ ("name", v) ∈ ([("name", "B"), ("ports", "4")] : Record)
        ∧ mdCell (recordGet [("name", "B"), ("ports", "4")] "name") = v
        ∧ csvCell (recordGet [("name", "B"), ("ports", "4")] "name") = v :=
  render_table_shape
    [[("name", "A"), ("price", "$10")], [("name", "B"), ("ports", "4")]]
    [("name", "B"), ("ports", "4")] "price" "name"
    (by decide) (by decide) (by decide)

/-- C3: writing a record list to CSV and re-parsing the written text with a
standard CSV reader reproduces every cell value exactly, commas, quotes and
newlines included: the parsed rows are precisely the header row and the
cell rows of the table.  The hypothesis excludes only the degenerate table
with no columns, which has no cell values and whose lone header line is
blank. -/
theorem csv_round_trip (data : List Record) (h : columnsOf data ≠ []) :
    csvParse (csvRender data) = csvTable data := by
  have h1 : csvParse (csvRender data)
      = (parseCsvAux (renderCsvChars ((csvTable data).map (fun r => r.map String.data)))
          false false [] [] []).map (fun r => r.map String.mk) := rfl
  have hne : ∀ r ∈ (csvTable data).map (fun r => r.map String.data), r ≠ [] := by
    intro r hr
    rcases List.mem_map.mp hr with ⟨sr, hsr, rfl⟩
    have hsr' : sr ≠ [] := by
      rcases List.mem_cons.mp hsr with rfl | hmem
      · exact h
      · rcases List.mem_map.mp hmem with ⟨row0, hrow0, rfl⟩
        rcases List.mem_map.mp hrow0 with ⟨rec, _, rfl⟩
        simp only [rowOf, ne_eq, List.map_eq_nil_iff]
        exact h
    simpa using hsr'
  rw [h1, parse_rendered_csv _ [] hne, List.nil_append, map_mk_map_data]

/-- C3 witness: a concrete table whose cells hold a comma, a doubled-quote
phrase and an embedded newline, together with a missing key rendered as an
empty field; the round trip reproduces header and cells exactly. -/
theorem csv_round_trip_witness :
    csvParse (csvRender [[("name", "A,B"), ("note", "he said \"hi\"")], [("name", "x\ny")]])
      = csvTable [[("name", "A,B"), ("note", "he said \"hi\"")], [("name", "x\ny")]] :=
  csv_round_trip [[("name", "A,B"), ("note", "he said \"hi\"")], [("name", "x\ny")]]
    (by decide)

/-- C2: the markdown rendering of a record whose cell holds a literal pipe
character does not escape it: the written data row, re-parsed by a
standard markdown-table reader, has two cells although the table has one
column.  This evaluates the code at the failing input of the code_bug
record; the spec itself notes the escaping requirement is one the source
lacks. -/
theorem markdown_pipe_not_escaped :
    markdownRender [[("k", "a|b")]] = "| k   |\n|:----|\n| a|b |"
    ∧ mdParseTable (markdownRender [[("k", "a|b")]])
        = [["k"], [":----"], ["a", "b"]]
    ∧ (columnsOf [[("k", "a|b")]]).length = 1
    ∧ (mdParseRow ("| a|b |")).length ≠ (columnsOf [[("k", "a|b")]]).length := by
  refine ⟨rfl, by decide, rfl, by decide⟩

/-- C4 counterexample: appending to an absent destination, and to an empty
one, still prepends the two-newline separator, so the separator is not
inserted only when the destination is non-empty. -/
theorem append_separator_on_empty_destination :
    (MarkdownTableTool.run none [[("a", "x")]] none true).fileState
      = some ("\n\n| a   |\n|:----|\n| x   |")
    ∧ (MarkdownTableTool.run (some "") [[("a", "x")]] none true).fileState
      = some ("\n\n| a   |\n|:----|\n| x   |")
    ∧ ("\n\n| a   |\n|:----|\n| x   |" : String) ≠ "| a   |\n|:----|\n| x   |" := by
  refine ⟨rfl, rfl, by decide⟩

/-- C4 as amended: the markdown writer's append mode always writes the
two-newline separator before the new content, whatever the destination
held: writing table A in overwrite mode and then appending table B yields
A, the separator, then B, and appending to any prior state st yields the
prior content followed by the separator and the new table. -/
theorem append_always_writes_separator (st : Option String) (dataA dataB : List Record) :
    (MarkdownTableTool.run (MarkdownTableTool.run st dataA none false).fileState
        dataB none true).fileState
      = some (markdownRender dataA ++ "\n\n" ++ markdownRender dataB)
    ∧ (MarkdownTableTool.run st dataB none true).fileState
      = some (st.getD "" ++ "\n\n" ++ markdownRender dataB) := by
  exact ⟨rfl, rfl⟩

/-- C5 counterexample: the overwrite path truncates the destination before
writing, so mid-write the destination holds the empty string, which is
neither the complete old content nor the complete new content. -/
theorem overwrite_truncates_mid_write :
    mdRunTrace (some "| old |") [[("a", "x")]] false
      = [some "| old |", some "", some ("| a   |\n|:----|\n| x   |")]
    ∧ (some "" : Option String) ≠ some "| old |"
    ∧ (some "" : Option String) ≠ some ("| a   |\n|:----|\n| x   |") := by
  refine ⟨rfl, by decide, by decide⟩

/-- C5 as amended: both writers overwrite by truncating the destination in
place and then writing, with no atomic temp-file replacement: two completed
overwrites leave exactly the second content, but the write trace passes
through the truncated empty state, so an interrupted write leaves a
truncated file rather than the old or the new complete content. -/
theorem overwrite_semantics (st : Option String) (dataA dataB : List Record) :
    (MarkdownTableTool.run (MarkdownTableTool.run st dataA none false).fileState
        dataB none false).fileState
      = some (markdownRender dataB)
    ∧ (CSVWriterTool.run (CSVWriterTool.run st dataA none).fileState dataB none).fileState
      = some (csvRender dataB)
    ∧ mdRunTrace st dataB false = [st, some "", some (markdownRender dataB)]
    ∧ traceFileOps st (csvWriteOps dataB) = [st, some "", some (csvRender dataB)] := by
  exact ⟨rfl, rfl, rfl, rfl⟩

/-- C6: on the empty record list both writers succeed: the derived table
has no columns and no rows, the rendered outputs are the fixed degenerate
strings, and both tool runs return their confirmation messages (the
embedded runs are total functions; no error path is taken). -/
theorem empty_recordset_renders_zero_rows :
    columnsOf [] = []
    ∧ rowsOf [] = []
    ∧ (rowsOf []).length = 0
    ∧ markdownRender [] = ""
    ∧ csvRender [] = "\n"
    ∧ (MarkdownTableTool.run none [] none false).message
        = "Markdown table generated and saved as router_review.md"
    ∧ (MarkdownTableTool.run none [] none false).fileState = some ""
    ∧ (CSVWriterTool.run none [] none).message
        = "CSV file generated and saved as router_review.csv"
    ∧ (CSVWriterTool.run none [] none).fileState = some "\n" := by
  exact ⟨rfl, rfl, rfl, rfl, rfl, rfl, rfl, rfl, rfl⟩

/-- C9 counterexample: starting the program in an environment and with a
dotenv file in which every required credential is absent still reaches the
crew kickoff with every collaborator tool constructed; no missing-credential
failure is ever produced. -/
theorem startup_accepts_empty_env :
    programStartup [] [] = StartupOutcome.ok [] startupTools
    ∧ programStartup [] [] ≠ StartupOutcome.missingCredential "SERPER_API_KEY"
    ∧ requiredCredentials.all (fun k => (([] : List (String × String)).lookup k).isNone)
        = true := by
  refine ⟨rfl, by decide, rfl⟩

/-- C9 as amended: the program performs no credential validation at all:
startup only merges the dotenv file into the environment and then proceeds
to construct the collaborator tools and kick off the crew, for every
environment; it never produces a missing-credential outcome, so an absent
key can only surface later from a collaborator itself. -/
theorem startup_never_validates (env fileVars : List (String × String)) (k : String) :
    programStartup env fileVars
      = StartupOutcome.ok (load_dotenv env fileVars) startupTools
    ∧ programStartup env fileVars ≠ StartupOutcome.missingCredential k := by
  exact ⟨rfl, fun h => StartupOutcome.noConfusion h⟩

/-- C10: a writer call without an explicit file_name writes to the default
captured when the class body was executed, router_review.md for the
markdown tool and router_review.csv for the CSV tool; the captured default
does not follow the current value of the module global, so after any
reassignment of the globals a default-argument call still writes to the
original destinations. -/
theorem default_destination_bound_at_definition (g : Globals) (st : Option String)
    (data : List Record) (hg : g.markdown_output ≠ "router_review.md") :
    mdRunDestination none = "router_review.md"
    ∧ csvRunDestination none = "router_review.csv"
    ∧ (MarkdownTableTool.run st data none false).message
        = "Markdown table generated and saved as router_review.md"
    ∧ (CSVWriterTool.run st data none).message
        = "CSV file generated and saved as router_review.csv"
    ∧ mdRunDestination none ≠ g.markdown_output := by
  exact ⟨rfl, rfl, rfl, rfl, fun h => hg h.symm⟩

/-- C10 witness: instantiated at globals reassigned to changed.md and
changed.csv, a concrete record list and an absent destination. -/
theorem default_destination_bound_at_definition_witness :
    mdRunDestination none = "router_review.md"
    ∧ csvRunDestination none = "router_review.csv"
    ∧ (MarkdownTableTool.run none [] none false).message
        = "Markdown table generated and saved as router_review.md"
    ∧ (CSVWriterTool.run none [] none).message
        = "CSV file generated and saved as router_review.csv"
    ∧ mdRunDestination none ≠ "changed.md" :=
  default_destination_bound_at_definition
    (Globals.mk ("changed.md") ("changed.csv")) none [] (by decide)

/-- Unfolding the coordinator run at a succeeding head stage. -/
theorem execStages_cons_ok (s : Stage) (rest : List Stage)
    (acc : List (String × String)) (o : String)
    (hr : s.run (contextFor acc s) = StageResult.ok o) :
    execStages (s :: rest) acc = execStages rest (acc ++ [(s.name, o)]) := by
  simp [execStages, hr]

/-- Unfolding the coordinator run at a failing head stage. -/
theorem execStages_cons_err (s : Stage) (rest : List Stage)
    (acc : List (String × String)) (m : String)
    (hr : s.run (contextFor acc s) = StageResult.err m) :
    execStages (s :: rest) acc = (acc, some (s.name, m)) := by
  simp [execStages, hr]

/-- Running an appended pipeline whose first part completes without failure
continues from the first part's accumulated outputs. -/
theorem execStages_append_ok (xs ys : List Stage) (acc outs : List (String × String))
    (h : execStages xs acc = (outs, none)) :
    execStages (xs ++ ys) acc = execStages ys outs := by
  induction xs generalizing acc with
  | nil =>
    have hacc : acc = outs := congrArg Prod.fst h
    rw [List.nil_append, hacc]
  | cons s rest ih =>
    cases hr : s.run (contextFor acc s) with
    | ok o =>
      rw [List.cons_append, execStages_cons_ok s (rest ++ ys) acc o hr]
      rw [execStages_cons_ok s rest acc o hr] at h
      exact ih _ h
    | err m =>
      rw [execStages_cons_err s rest acc m hr] at h
      exact absurd (congrArg Prod.snd h) (by simp)

/-- C7: when the stages before stage s all succeed, producing outputs outs,
and s fails on its context, the remaining stages never execute and the
final report holds exactly the prior outputs together with the identity and
message of the failing stage, and no output of any later stage. -/
theorem pipeline_abort_semantics (pre : List Stage) (s : Stage) (post : List Stage)
    (outs : List (String × String)) (m : String)
    (h1 : execStages pre [] = (outs, none))
    (h2 : s.run (contextFor outs s) = StageResult.err m) :
    finalReport (pre ++ s :: post)
      = { completed := outs, failure := some (s.name, m) } := by
  have hall : execStages (pre ++ s :: post) [] = (outs, some (s.name, m)) := by
    rw [execStages_append_ok pre (s :: post) [] outs h1]
    simp [execStages, h2]
  simp [finalReport, hall]

/-- C7 witness: a three-stage run in which the first stage succeeds, the
second fails and the third is never reached: the report holds exactly the
first stage's output and the second stage's failure. -/
theorem pipeline_abort_semantics_witness :
    finalReport ([collectStage] ++ failingStage :: [neverRunStage])
      = { completed := [("collect", "records")],
          failure := some ("analyze_markdown", "collaborator error") } :=
  pipeline_abort_semantics [collectStage] failingStage [neverRunStage]
    [("collect", "records")] "collaborator error" rfl rfl

/-- C8: every task of the crew declares as context only tasks that precede
it in the crew's task order, and both analysis tasks declare exactly the
collection task. -/
theorem context_precedes_invariant (i : Nat) (hi : i < crewTasks.length) :
    (∀ cn ∈ (crewTasks.getD i collect_reviews_task).context, taskPosition cn < i)
    ∧ analyze_reviews_markdown_task.context = ["collect_reviews_task"]
    ∧ analyze_reviews_csv_task.context = ["collect_reviews_task"] := by
  refine ⟨?_, rfl, rfl⟩
  have h3 : i < 3 := hi
  interval_cases i <;> decide

/-- C8 witness: the invariant instantiated at the markdown analysis task,
position one of the crew order. -/
theorem context_precedes_invariant_witness :
    (∀ cn ∈ (crewTasks.getD 1 collect_reviews_task).context, taskPosition cn < 1)
    ∧ analyze_reviews_markdown_task.context = ["collect_reviews_task"]
    ∧ analyze_reviews_csv_task.context = ["collect_reviews_task"] :=
  context_precedes_invariant 1 (by decide)

end CrewReview
